import Mathlib

/-!
Shallow embedding of the camerafetch repository: the camera polling daemon
in main.py and the timelapse encoder in create-timelapse.py. External
capabilities (the HTTP client, the filesystem, cv2, clocks) appear as
explicit parameters or oracles; everything else is translated from the
source.
-/

/-- Root directory for saved images, from main.py. -/
def SAVE_DIR : String := "camera_images"

/-- Network request timeout in seconds, from main.py. -/
def REQUEST_TIMEOUT : Int := 15

/-- A camera descriptor, one entry of the CAMERAS registry in main.py. -/
structure Camera where
  name : String
  url : String
  interval : Int
deriving DecidableEq

/-- The static camera registry from main.py. -/
def CAMERAS : List Camera :=
  [⟨"Front Door", "https://example.com/FrontDoor.JPG", 60⟩,
   ⟨"Pool", "https://example.com/Pool.jpg", 30⟩]

/-- Directory for one camera: os.path.join of SAVE_DIR and the camera name,
with the POSIX separator. -/
def cameraDir (name : String) : String := SAVE_DIR ++ "/" ++ name

/-- Directory of a registry entry. -/
def camDir (c : Camera) : String := cameraDir c.name

/-- Thread name given to a poll loop in the main block of main.py. -/
def threadName (c : Camera) : String := "CamThread-" ++ c.name

/-- Boolean test that ndl occurs as a contiguous run inside hay; models the
Python substring operator in. -/
def listHasInfix : List Char → List Char → Bool
  | [], ndl => ndl.isEmpty
  | c :: t, ndl => ndl.isPrefixOf (c :: t) || listHasInfix t ndl

/-- Substring test on strings. -/
def strContains (hay ndl : String) : Bool := listHasInfix hay.data ndl.data

/-- Suffix test on strings, modelling str.endswith. -/
def strEndsWith (s p : String) : Bool := p.data.isSuffixOf s.data

/-- ASCII lowercasing, modelling str.lower on the ASCII range where all the
compared MIME types and extensions live. -/
def strLower (s : String) : String := String.mk (s.data.map Char.toLower)

/-- Models get_file_extension in main.py: classify the extension from the
optional content-type header by case-insensitive substring match; the Bool
records whether the fallback warning was emitted. -/
def get_file_extension (contentType : Option String) : String × Bool :=
  match contentType with
  | some ct =>
    if strContains (strLower ct) ("image/jpeg") then (".jpg", false)
    else if strContains (strLower ct) ("image/png") then (".png", false)
    else if strContains (strLower ct) ("image/gif") then (".gif", false)
    else if strContains (strLower ct) ("image/bmp") then (".bmp", false)
    else (".jpg", true)
  | none => (".jpg", true)

/-- One decimal digit character, the digit of n mod 10. -/
def digitChar10 (n : Nat) : Char := Nat.digitChar (n % 10)

/-- Models strftime with the format string of fetch_and_save, namely
percent-Y percent-m percent-d underscore percent-H percent-M percent-S, for
in-range date fields (year below 10000, the other fields below 100). -/
def formatTimestamp (y mo d h mi s : Nat) : String :=
  String.mk [digitChar10 (y / 1000), digitChar10 (y / 100), digitChar10 (y / 10), digitChar10 y,
    digitChar10 (mo / 10), digitChar10 mo, digitChar10 (d / 10), digitChar10 d, '_',
    digitChar10 (h / 10), digitChar10 h, digitChar10 (mi / 10), digitChar10 mi,
    digitChar10 (s / 10), digitChar10 s]

/-- Filename built in fetch_and_save: name, underscore, timestamp, extension. -/
def savedFileName (name ts ext : String) : String := name ++ "_" ++ ts ++ ext

/-- Full path of a saved image: os.path.join of the camera directory and the
filename. -/
def savedFilePath (name ts ext : String) : String :=
  cameraDir name ++ "/" ++ savedFileName name ts ext

/-- Deadline computed at the top of each poll iteration: the monotonic
reading before the fetch plus the camera interval. -/
def nextFetchTime (t0 interval : Int) : Int := t0 + interval

/-- Sleep duration computed after the fetch: max of zero and the deadline
minus the monotonic reading after the fetch. -/
def sleepDuration (deadline now : Int) : Int := max 0 (deadline - now)

/-- Initial state of the threading.Event shutdown flag. -/
def shutdownInit : Bool := false

/-- Event.set as called by signal_handler: sets the flag regardless of its
current value. -/
def shutdownSet (_ : Bool) : Bool := true

/-- Time actually spent in Event.wait given the flag state: an already set
flag makes the interruptible wait return immediately. -/
def shutdownWait (flagIsSet : Bool) (d : Int) : Int := if flagIsSet then 0 else d

/-- Fetch attempts performed by the while loop of fetch_and_save: flag gives
the shutdown state observed at the top of each iteration, fuel bounds the
observation window, and each performed fetch is recorded by its iteration
index. -/
def pollFetches (flag : Nat → Bool) : Nat → Nat → List Nat
  | 0, _ => []
  | fuel + 1, t => if flag t then [] else t :: pollFetches flag fuel (t + 1)

/-- Whether response.raise_for_status raises: exactly the statuses 400 to
599. -/
def raiseForStatus (status : Nat) : Bool := decide (400 ≤ status) && decide (status < 600)

/-- Whether a status is a 2xx success status. -/
def is2xx (status : Nat) : Bool := decide (200 ≤ status) && decide (status < 300)

/-- The network-level failures distinguished by the except clauses of
fetch_and_save. -/
inductive NetError where
  | timeout
  | connectionError
  | otherRequestError
deriving DecidableEq

/-- Outcome of the externals during one cycle of fetch_and_save: an HTTP
response (with whether the subsequent file write succeeds), a network
failure, or any other unexpected exception. -/
inductive CycleInput where
  | response (status : Nat) (contentType : Option String) (writeOk : Bool)
  | netFail (e : NetError)
  | unexpected
deriving DecidableEq

/-- Observable result of one cycle: files written, the failure log line if
any, and whether control reaches the sleep at the bottom of the loop. -/
structure CycleOutcome where
  filesWritten : Nat
  failLog : Option String
  continues : Bool
deriving DecidableEq

/-- One iteration body of fetch_and_save: the try block plus its except
clauses. A raising raise_for_status lands in the RequestException handler;
every branch falls through to the sleep, so continues is true throughout. -/
def runCycle (name : String) (inp : CycleInput) : CycleOutcome :=
  match inp with
  | .response status _ writeOk =>
    if raiseForStatus status then
      { filesWritten := 0, failLog := some ("[" ++ name ++ "] Error fetching image"), continues := true }
    else if writeOk then
      { filesWritten := 1, failLog := none, continues := true }
    else
      { filesWritten := 0, failLog := some ("[" ++ name ++ "] Error saving image"), continues := true }
  | .netFail .timeout =>
      { filesWritten := 0, failLog := some ("[" ++ name ++ "] Timeout error fetching image"), continues := true }
  | .netFail .connectionError =>
      { filesWritten := 0, failLog := some ("[" ++ name ++ "] Error fetching image"), continues := true }
  | .netFail .otherRequestError =>
      { filesWritten := 0, failLog := some ("[" ++ name ++ "] Error fetching image"), continues := true }
  | .unexpected =>
      { filesWritten := 0, failLog := some ("[" ++ name ++ "] An unexpected error occurred"), continues := true }

/-- One concurrent cycle across all cameras: each camera only sees its own
input, mirroring the fully independent threads of the main block. -/
def runAll (cams : List Camera) (inps : String → CycleInput) : List CycleOutcome :=
  cams.map (fun c => runCycle c.name (inps c.name))

/-- Models os.makedirs with exist_ok set, over an abstract filesystem: the
list of existing directories; canCreate says whether the OS permits creating
a path. A pre-existing directory is never an error. -/
def makedirs (canCreate : String → Bool) (fs : List String) (p : String) : Option (List String) :=
  if p ∈ fs then some fs
  else if canCreate p then some (p :: fs)
  else none

/-- Sequentially create every directory in the list, failing on the first
OSError. -/
def createAll (canCreate : String → Bool) : List String → List String → Option (List String)
  | [], fs => some fs
  | p :: ps, fs =>
    match makedirs canCreate fs p with
    | none => none
    | some fs1 => createAll canCreate ps fs1

/-- Directories created by setup_directories: the root first, then one
subdirectory per camera. -/
def dirList (reg : List Camera) : List String := SAVE_DIR :: reg.map camDir

/-- Models setup_directories in main.py; none models the sys.exit call with
status 1 on an OSError. -/
def setup_directories (canCreate : String → Bool) (fs : List String) (reg : List Camera) :
    Option (List String) :=
  createAll canCreate (dirList reg) fs

/-- Models the main block before the join phase: provision directories, then
start one poll thread per registry entry; no registry validation occurs
anywhere in main.py. -/
def mainStartup (canCreate : String → Bool) (fs : List String) (reg : List Camera) :
    Option (List String) :=
  match setup_directories canCreate fs reg with
  | none => none
  | some _ => some (reg.map threadName)

/-- Process exit status of the main block: 1 when directory provisioning
fails, otherwise 0 after all threads join. -/
def mainExitCode (canCreate : String → Bool) (fs : List String) (reg : List Camera) : Nat :=
  match setup_directories canCreate fs reg with
  | none => 1
  | some _ => 0

/-- A registry with a duplicated camera name, used to probe validation. -/
def dupReg : List Camera :=
  [⟨"Pool", "https://example.com/a.jpg", 30⟩,
   ⟨"Pool", "https://example.com/b.jpg", 60⟩]

/-- One os.listdir entry as seen by create-timelapse.py: its name and
whether os.path.isfile holds for it. -/
structure DirEntry where
  name : String
  isRegularFile : Bool
deriving DecidableEq

/-- Models the list comprehension selecting image files in create_timelapse:
regular files whose lowercased name ends with the lowercased extension. -/
def selectImages (image_ext : String) (entries : List DirEntry) : List String :=
  (entries.filter
    (fun e => e.isRegularFile && strEndsWith (strLower e.name) (strLower image_ext))).map
    DirEntry.name

/-- Value of a run of decimal digit characters. -/
def digitsToNat (cs : List Char) : Nat := cs.foldl (fun a c => 10 * a + (c.toNat - 48)) 0

/-- Fuelled tokenizer behind the natural sort key: maximal runs of digits
become numbers, other maximal runs stay strings. The fuel is the length of
the input, which always suffices. -/
def tokenizeAux : Nat → List Char → List (Nat ⊕ String)
  | 0, _ => []
  | _ + 1, [] => []
  | fuel + 1, c :: cs =>
    (if c.isDigit then
      Sum.inl (digitsToNat ((c :: cs).takeWhile (fun d => d.isDigit == c.isDigit)))
     else
      Sum.inr (String.mk ((c :: cs).takeWhile (fun d => d.isDigit == c.isDigit))))
    :: tokenizeAux fuel ((c :: cs).dropWhile (fun d => d.isDigit == c.isDigit))

/-- Natural sort key, modelling the natsort key: digit runs compare as
numbers, other runs as strings. -/
def natKey (s : String) : List (Nat ⊕ String) := tokenizeAux s.data.length s.data

/-- Ordinal strict comparison of character lists, modelling Python string
comparison. -/
def charListLt : List Char → List Char → Bool
  | [], [] => false
  | [], _ :: _ => true
  | _ :: _, [] => false
  | a :: as, b :: bs => if a = b then charListLt as bs else decide (a < b)

/-- Strict order on key chunks: numbers before strings, numbers by value,
strings ordinally. -/
def chunkLt : Nat ⊕ String → Nat ⊕ String → Bool
  | Sum.inl m, Sum.inl n => decide (m < n)
  | Sum.inr s, Sum.inr t => charListLt s.data t.data
  | Sum.inl _, Sum.inr _ => true
  | Sum.inr _, Sum.inl _ => false

/-- Lexicographic comparison of natural sort keys. -/
def keyLe : List (Nat ⊕ String) → List (Nat ⊕ String) → Bool
  | [], _ => true
  | _ :: _, [] => false
  | a :: as, b :: bs => if a = b then keyLe as bs else chunkLt a b

/-- Natural sort comparison on filenames. -/
def natLe (a b : String) : Bool := keyLe (natKey a) (natKey b)

/-- Insert into a sorted list, keeping the comparison order. -/
def insertSorted (le : String → String → Bool) (x : String) : List String → List String
  | [] => [x]
  | y :: ys => if le x y then x :: y :: ys else y :: insertSorted le x ys

/-- Insertion sort by a boolean comparison. -/
def sortLe (le : String → String → Bool) : List String → List String
  | [] => []
  | x :: xs => insertSorted le x (sortLe le xs)

/-- Models natsorted from the natsort library, applied to the image list. -/
def natsorted (files : List String) : List String := sortLe natLe files

/-- Models create_timelapse in create-timelapse.py. External capabilities
are oracles: decode models cv2.imread (none for an unreadable image),
folderIsDir models os.path.isdir, entries models os.listdir together with
os.path.isfile, writerOpens models VideoWriter.isOpened. none models the
early returns that produce no video; some gives the frames written in order
together with the count of skipped unreadable images. -/
def create_timelapse (decode : String → Option Nat) (folderIsDir : Bool)
    (entries : List DirEntry) (fps : Nat) (writerOpens : Bool)
    (image_ext : String) : Option (List Nat × Nat) :=
  if !folderIsDir then none
  else if (selectImages image_ext entries).isEmpty then none
  else
    match natsorted (selectImages image_ext entries) with
    | [] => none
    | first :: rest =>
      match decode first with
      | none => none
      | some _ =>
        if !writerOpens then none
        else some ((first :: rest).filterMap decode,
                   (first :: rest).countP (fun g => (decode g).isNone))

/-! ## Helper lemmas -/

theorem strAppend_assoc (a b c : String) : (a ++ b) ++ c = a ++ (b ++ c) :=
  congrArg String.mk (List.append_assoc a.data b.data c.data)

theorem listIsPrefixOf_self_append (x b : List Char) : x.isPrefixOf (x ++ b) = true := by
  simp

theorem listHasInfix_nil (hay : List Char) : listHasInfix hay [] = true := by
  cases hay <;> simp [listHasInfix, List.isPrefixOf]

theorem listHasInfix_surround (a x b : List Char) : listHasInfix (a ++ x ++ b) x = true := by
  induction a with
  | nil =>
    simp only [List.nil_append]
    cases x with
    | nil => exact listHasInfix_nil b
    | cons c cs => simp [listHasInfix, listIsPrefixOf_self_append]
  | cons d a' ih =>
    have hshape : (d :: a') ++ x ++ b = d :: (a' ++ x ++ b) := by simp
    rw [hshape]
    unfold listHasInfix
    rw [ih, Bool.or_true]

theorem strContains_surround (pre s post : String) :
    strContains (pre ++ s ++ post) s = true := by
  have hd : (pre ++ s ++ post).data = pre.data ++ s.data ++ post.data := rfl
  simp only [strContains, hd]
  exact listHasInfix_surround pre.data s.data post.data

theorem runCycle_continues (name : String) (inp : CycleInput) :
    (runCycle name inp).continues = true := by
  rcases inp with ⟨status, ct, writeOk⟩ | e | _
  · by_cases h : raiseForStatus status = true <;> cases writeOk <;>
      simp [runCycle, h]
  · cases e <;> rfl
  · rfl

theorem makedirs_some (cc : String → Bool) (fs : List String) (p : String) (fs1 : List String)
    (h : makedirs cc fs p = some fs1) : fs ⊆ fs1 ∧ p ∈ fs1 := by
  unfold makedirs at h
  by_cases hp : p ∈ fs
  · simp [hp] at h
    subst h
    exact ⟨fun _ hx => hx, hp⟩
  · simp [hp] at h
    rcases h with ⟨_, h2⟩
    subst h2
    exact ⟨fun x hx => List.mem_cons_of_mem p hx, List.mem_cons_self p fs⟩

theorem createAll_some (cc : String → Bool) :
    ∀ (ps : List String) (fs fs1 : List String), createAll cc ps fs = some fs1 →
      fs ⊆ fs1 ∧ ∀ p ∈ ps, p ∈ fs1 := by
  intro ps
  induction ps with
  | nil =>
    intro fs fs1 h
    simp [createAll] at h
    subst h
    exact ⟨fun _ hx => hx, by simp⟩
  | cons p ps ih =>
    intro fs fs1 h
    unfold createAll at h
    rcases hm : makedirs cc fs p with _ | fsm
    · rw [hm] at h; exact absurd h (by simp)
    · rw [hm] at h
      obtain ⟨h1, h2⟩ := makedirs_some cc fs p fsm hm
      obtain ⟨h3, h4⟩ := ih fsm fs1 h
      refine ⟨fun x hx => h3 (h1 hx), ?_⟩
      intro q hq
      rcases List.mem_cons.mp hq with hq | hq
      · subst hq; exact h3 h2
      · exact h4 q hq

theorem createAll_of_all_mem (cc : String → Bool) :
    ∀ (ps : List String) (fs : List String), (∀ p ∈ ps, p ∈ fs) →
      createAll cc ps fs = some fs := by
  intro ps
  induction ps with
  | nil => intro fs _; rfl
  | cons p ps ih =>
    intro fs h
    have hp : p ∈ fs := h p (List.mem_cons_self p ps)
    have hrest : ∀ q ∈ ps, q ∈ fs := fun q hq => h q (List.mem_cons_of_mem p hq)
    unfold createAll makedirs
    simp [hp]
    exact ih fs hrest

theorem insertSorted_ne_nil (le : String → String → Bool) (x : String) (l : List String) :
    insertSorted le x l ≠ [] := by
  cases l with
  | nil => simp [insertSorted]
  | cons y ys =>
    unfold insertSorted
    by_cases h : le x y = true <;> simp [h]

theorem sortLe_eq_nil (le : String → String → Bool) (l : List String)
    (h : sortLe le l = []) : l = [] := by
  cases l with
  | nil => rfl
  | cons x xs => exact absurd h (insertSorted_ne_nil le x (sortLe le xs))

theorem insertSorted_perm (le : String → String → Bool) (x : String) (l : List String) :
    (insertSorted le x l).Perm (x :: l) := by
  induction l with
  | nil => exact List.Perm.refl [x]
  | cons y ys ih =>
    unfold insertSorted
    by_cases h : le x y = true
    · simp [h]
    · simp only [h, if_false]
      exact (ih.cons y).trans (List.Perm.swap x y ys)

theorem sortLe_perm (le : String → String → Bool) (l : List String) :
    (sortLe le l).Perm l := by
  induction l with
  | nil => exact List.Perm.refl []
  | cons x xs ih => exact (insertSorted_perm le x (sortLe le xs)).trans (ih.cons x)

/-! ## Claim theorems -/

/-- C1: in every poll iteration the deadline is the monotonic reading before
the fetch plus the interval, the wait is max of zero and deadline minus the
reading after the fetch, hence it is never negative; with interval 30 and a
fetch of 5 the wait is 25, and a fetch at least as long as the interval
gives a wait of 0. -/
theorem camera_poll_wait_spec (t0 fetchTime interval : Int) :
    sleepDuration (nextFetchTime t0 interval) (t0 + fetchTime) = max 0 (interval - fetchTime)
    ∧ 0 ≤ sleepDuration (nextFetchTime t0 interval) (t0 + fetchTime)
    ∧ (interval = 30 → fetchTime = 5 →
        sleepDuration (nextFetchTime t0 interval) (t0 + fetchTime) = 25)
    ∧ (interval ≤ fetchTime →
        sleepDuration (nextFetchTime t0 interval) (t0 + fetchTime) = 0) := by
  have key : nextFetchTime t0 interval - (t0 + fetchTime) = interval - fetchTime := by
    unfold nextFetchTime; ring
  unfold sleepDuration
  rw [key]
  refine ⟨rfl, le_max_left 0 _, ?_, ?_⟩
  · rintro rfl rfl; norm_num
  · intro h; exact max_eq_left (by omega)

/-- Witness for C1 at interval 30, fetch time 5, start 100: the wait is 25. -/
theorem camera_poll_wait_spec_witness :
    sleepDuration (nextFetchTime 100 30) (100 + 5) = 25 :=
  (camera_poll_wait_spec 100 5 30).2.2.1 rfl rfl

/-- C2 counterexample: a 304 response is not 2xx, yet raise_for_status does
not raise, so the body is written and one file is produced. -/
theorem fetch_2xx_claim_counterexample :
    (runCycle "Pool" (CycleInput.response 304 none true)).filesWritten = 1
    ∧ is2xx 304 = false := by decide

/-- C2 amended: one file is written exactly when raise_for_status does not
raise, that is the status is outside 400 to 599, and the write succeeds; any
4xx or 5xx status, 500 included, yields zero files and a reported failure. -/
theorem fetch_file_iff_no_http_error (status : Nat) (ct : Option String) (writeOk : Bool)
    (name : String) :
    ((runCycle name (CycleInput.response status ct writeOk)).filesWritten = 1
        ↔ (raiseForStatus status = false ∧ writeOk = true))
    ∧ (raiseForStatus status = true →
        (runCycle name (CycleInput.response status ct writeOk)).filesWritten = 0
          ∧ (runCycle name (CycleInput.response status ct writeOk)).failLog.isSome = true)
    ∧ raiseForStatus 500 = true := by
  refine ⟨?_, ?_, by decide⟩
  · by_cases h : raiseForStatus status = true <;> cases writeOk <;> simp [runCycle, h]
  · intro h
    simp [runCycle, h]

/-- Witness for C2 amended: HTTP 500 yields zero files. -/
theorem fetch_file_iff_no_http_error_witness :
    (runCycle "Pool" (CycleInput.response 500 none true)).filesWritten = 0 :=
  ((fetch_file_iff_no_http_error 500 none true "Pool").2.1 (by decide)).1

/-- C3: the shutdown flag starts false, setting it always yields true and is
idempotent, a set flag makes the interruptible wait return immediately, and
once the flag is set, monotonically, every poll loop performs no further
fetch attempt from that iteration on. -/
theorem shutdown_flag_spec (flag : Nat → Bool) (k : Nat)
    (hmono : ∀ m n, m ≤ n → flag m = true → flag n = true)
    (hk : flag k = true) :
    shutdownInit = false
    ∧ (∀ b, shutdownSet b = true)
    ∧ (∀ b, shutdownSet (shutdownSet b) = shutdownSet b)
    ∧ (∀ d, shutdownWait true d = 0)
    ∧ (∀ fuel t, k ≤ t → pollFetches flag fuel t = []) := by
  refine ⟨rfl, fun _ => rfl, fun _ => rfl, fun _ => rfl, ?_⟩
  intro fuel t ht
  cases fuel with
  | zero => rfl
  | succ n => simp [pollFetches, hmono k t ht hk]

/-- Witness for C3: with the flag set from the start, a loop with fuel 5
performs no fetch. -/
theorem shutdown_flag_spec_witness : pollFetches (fun _ => true) 5 0 = [] :=
  (shutdown_flag_spec (fun _ => true) 0 (fun _ _ _ h => h) rfl).2.2.2.2 5 0 (Nat.zero_le 0)

/-- C4 counterexample: a 304 response is a non-2xx status, yet the cycle
logs no failure at all and instead writes a file, because raise_for_status
raises only for 400 to 599; so not every non-2xx status is reported as a
logged failure. -/
theorem nontwoxx_logged_failure_counterexample :
    (runCycle "Front Door" (CycleInput.response 304 none true)).failLog = none
    ∧ (runCycle "Front Door" (CycleInput.response 304 none true)).filesWritten = 1
    ∧ is2xx 304 = false := by decide

/-- C4 amended: every cycle outcome, success or any failure kind, falls
through to the next scheduled cycle; every failure kind, namely network
timeout, a 4xx or 5xx status (those for which raise_for_status raises),
connection or other request error, filesystem write error, or any other
exception, logs a line containing the camera name; and across cameras each
loop produces its outcome from its own input alone, all of them
continuing. -/
theorem cycle_error_handling_spec (name : String) (inp : CycleInput) (cams : List Camera)
    (inps : String → CycleInput) :
    (runCycle name inp).continues = true
    ∧ (∀ e : NetError,
        strContains (((runCycle name (CycleInput.netFail e)).failLog).getD "") name = true)
    ∧ (∀ status ct writeOk, raiseForStatus status = true →
        strContains
          (((runCycle name (CycleInput.response status ct writeOk)).failLog).getD "") name
          = true)
    ∧ (∀ status ct, raiseForStatus status = false →
        strContains
          (((runCycle name (CycleInput.response status ct false)).failLog).getD "") name
          = true)
    ∧ strContains (((runCycle name CycleInput.unexpected).failLog).getD "") name = true
    ∧ (runAll cams inps).length = cams.length
    ∧ (∀ o ∈ runAll cams inps, o.continues = true) := by
  refine ⟨runCycle_continues name inp, ?_, ?_, ?_, ?_, by simp [runAll], ?_⟩
  · intro e
    cases e <;> simp [runCycle] <;> exact strContains_surround "[" name _
  · intro status ct writeOk h
    simp [runCycle, h]
    exact strContains_surround "[" name _
  · intro status ct h
    simp [runCycle, h]
    exact strContains_surround "[" name _
  · simp [runCycle]
    exact strContains_surround "[" name _
  · intro o ho
    rcases List.mem_map.mp ho with ⟨c, _, rfl⟩
    exact runCycle_continues c.name (inps c.name)

/-- Witness for C4: a timeout for camera Pool logs a line containing the
camera name. -/
theorem cycle_error_handling_spec_witness :
    strContains (((runCycle "Pool" (CycleInput.netFail NetError.timeout)).failLog).getD "")
      "Pool" = true :=
  (cycle_error_handling_spec "Pool" (CycleInput.netFail NetError.timeout) []
    (fun _ => CycleInput.unexpected)).2.1 NetError.timeout

/-- Helper: with a permissive filesystem, directory creation never fails. -/
theorem createAll_always_some (ps : List String) :
    ∀ fs : List String, (createAll (fun _ => true) ps fs).isSome = true := by
  induction ps with
  | nil => intro fs; rfl
  | cons p ps ih =>
    intro fs
    unfold createAll makedirs
    by_cases hp : p ∈ fs
    · simp only [hp, if_true]
      exact ih fs
    · simp only [hp, if_false, if_true]
      exact ih (p :: fs)

/-- C5 counterexample: the registry with two cameras both named Pool has a
duplicated name, yet startup performs no validation: both poll threads are
started and they share the same directory. -/
theorem duplicate_names_not_rejected_counterexample :
    ¬ (dupReg.map Camera.name).Nodup
    ∧ mainStartup (fun _ => true) [] dupReg = some ["CamThread-Pool", "CamThread-Pool"]
    ∧ dupReg.map camDir = ["camera_images/Pool", "camera_images/Pool"] :=
  ⟨by decide, rfl, rfl⟩

/-- C5 amended: main.py contains no registry validation: startup accepts any
registry, duplicate names included, starts exactly one poll thread per
entry, and two cameras with equal names share the same directory and the
same filename prefix. -/
theorem duplicate_names_accepted (canCreate : String → Bool) (fs : List String)
    (reg : List Camera) (threads : List String)
    (h : mainStartup canCreate fs reg = some threads) :
    threads.length = reg.length
    ∧ (∀ c1 c2 : Camera, c1.name = c2.name →
        camDir c1 = camDir c2 ∧ threadName c1 = threadName c2)
    ∧ (∀ reg2 : List Camera, (mainStartup (fun _ => true) [] reg2).isSome = true) := by
  refine ⟨?_, ?_, ?_⟩
  · unfold mainStartup at h
    rcases hs : setup_directories canCreate fs reg with _ | fs1
    · rw [hs] at h; exact absurd h (by simp)
    · rw [hs] at h
      have : threads = reg.map threadName := by
        simpa using h.symm
      rw [this, List.length_map]
  · intro c1 c2 hn
    constructor
    · unfold camDir cameraDir; rw [hn]
    · unfold threadName; rw [hn]
  · intro reg2
    unfold mainStartup
    rcases hs : setup_directories (fun _ => true) [] reg2 with _ | fs1
    · have := createAll_always_some (dirList reg2) []
      unfold setup_directories at hs
      rw [hs] at this
      exact absurd this (by simp)
    · rfl

/-- Witness for C5 amended: the duplicated registry starts both threads. -/
theorem duplicate_names_accepted_witness :
    (["CamThread-Pool", "CamThread-Pool"] : List String).length = dupReg.length :=
  (duplicate_names_accepted (fun _ => true) [] dupReg
    ["CamThread-Pool", "CamThread-Pool"] rfl).1

/-- C6: the saved extension comes from a case-insensitive substring match of
the content-type header against the four known MIME types, jpeg first, then
png, gif, bmp; a missing header or one matching none of them yields the
default extension with a warning. -/
theorem file_extension_spec (ct : String) :
    get_file_extension none = (".jpg", true)
    ∧ (strContains (strLower ct) ("image/jpeg") = true →
        get_file_extension (some ct) = (".jpg", false))
    ∧ (strContains (strLower ct) ("image/jpeg") = false →
        strContains (strLower ct) ("image/png") = true →
        get_file_extension (some ct) = (".png", false))
    ∧ (strContains (strLower ct) ("image/jpeg") = false →
        strContains (strLower ct) ("image/png") = false →
        strContains (strLower ct) ("image/gif") = true →
        get_file_extension (some ct) = (".gif", false))
    ∧ (strContains (strLower ct) ("image/jpeg") = false →
        strContains (strLower ct) ("image/png") = false →
        strContains (strLower ct) ("image/gif") = false →
        strContains (strLower ct) ("image/bmp") = true →
        get_file_extension (some ct) = (".bmp", false))
    ∧ (strContains (strLower ct) ("image/jpeg") = false →
        strContains (strLower ct) ("image/png") = false →
        strContains (strLower ct) ("image/gif") = false →
        strContains (strLower ct) ("image/bmp") = false →
        get_file_extension (some ct) = (".jpg", true)) := by
  refine ⟨rfl, ?_, ?_, ?_, ?_, ?_⟩ <;>
    · intros
      simp [get_file_extension, *]

/-- Witness for C6: an uppercase PNG content type still yields .png, with no
warning. -/
theorem file_extension_spec_witness :
    get_file_extension (some "IMAGE/PNG") = (".png", false) :=
  (file_extension_spec "IMAGE/PNG").2.2.1 (by decide) (by decide)

/-- Helper: the digit characters produced by the timestamp formatter are
decimal digits. -/
theorem digitChar10_isDigit (n : Nat) : (digitChar10 n).isDigit = true := by
  unfold digitChar10
  have h : n % 10 < 10 := Nat.mod_lt _ (by norm_num)
  revert h
  generalize n % 10 = k
  intro h
  interval_cases k <;> decide

/-- C7 counterexample: the timestamp the code actually formats, here for
2026-10-12 15:30:45, is 15 characters with an underscore inside, so it is
not fourteen contiguous digits. -/
theorem timestamp_fourteen_digits_counterexample :
    formatTimestamp 2026 10 12 15 30 45 = "20261012_153045"
    ∧ (formatTimestamp 2026 10 12 15 30 45).length = 15
    ∧ ¬ ((formatTimestamp 2026 10 12 15 30 45).data.all Char.isDigit = true
          ∧ (formatTimestamp 2026 10 12 15 30 45).length = 14) := by
  refine ⟨by decide, by decide, ?_⟩
  intro hcontra
  exact absurd hcontra.1 (by decide)

/-- C7 amended: for every successful fetch the filename timestamp is the
wall clock formatted as eight date digits, an underscore, then six time
digits, 15 characters in all, and the file path is root slash name slash
name underscore timestamp extension. -/
theorem saved_path_format_spec (name ext : String) (y mo d h mi s : Nat) :
    savedFilePath name (formatTimestamp y mo d h mi s) ext
      = SAVE_DIR ++ "/" ++ name ++ "/" ++ (name ++ "_" ++ formatTimestamp y mo d h mi s ++ ext)
    ∧ (formatTimestamp y mo d h mi s).length = 15
    ∧ ∃ dateDigits timeDigits : List Char,
        (formatTimestamp y mo d h mi s).data = dateDigits ++ '_' :: timeDigits
        ∧ dateDigits.length = 8 ∧ timeDigits.length = 6
        ∧ dateDigits.all Char.isDigit = true ∧ timeDigits.all Char.isDigit = true := by
  refine ⟨?_, rfl, ?_⟩
  · unfold savedFilePath cameraDir savedFileName
    rw [strAppend_assoc (SAVE_DIR ++ "/" ++ name) "/" _]
  · refine ⟨[digitChar10 (y / 1000), digitChar10 (y / 100), digitChar10 (y / 10), digitChar10 y,
      digitChar10 (mo / 10), digitChar10 mo, digitChar10 (d / 10), digitChar10 d],
      [digitChar10 (h / 10), digitChar10 h, digitChar10 (mi / 10), digitChar10 mi,
       digitChar10 (s / 10), digitChar10 s], rfl, rfl, rfl, ?_, ?_⟩ <;>
      simp [digitChar10_isDigit]

/-- C8: the process exit status is 0 exactly when directory provisioning
succeeds (after which all loops are joined), and 1, a distinguished nonzero
status, when it fails; provisioning is idempotent, so rerunning it on the
filesystem it produced succeeds unchanged, and pre-existing directories are
never an error. -/
theorem exit_code_spec (canCreate : String → Bool) (fs : List String) (reg : List Camera) :
    (mainExitCode canCreate fs reg = 0 ↔ (setup_directories canCreate fs reg).isSome = true)
    ∧ (setup_directories canCreate fs reg = none → mainExitCode canCreate fs reg = 1)
    ∧ (∀ fs2, setup_directories canCreate fs reg = some fs2 →
        setup_directories canCreate fs2 reg = some fs2)
    ∧ (∀ p ∈ fs, makedirs canCreate fs p = some fs) := by
  refine ⟨?_, ?_, ?_, ?_⟩
  · unfold mainExitCode
    rcases hs : setup_directories canCreate fs reg with _ | fs1 <;> simp [hs]
  · intro h
    unfold mainExitCode
    rw [h]
  · intro fs2 h
    unfold setup_directories at h ⊢
    obtain ⟨_, hall⟩ := createAll_some canCreate (dirList reg) fs fs2 h
    exact createAll_of_all_mem canCreate (dirList reg) fs2 hall
  · intro p hp
    unfold makedirs
    simp [hp]

/-- Witness for C8: with a permissive filesystem the shipped registry
provisions successfully and the exit status is 0. -/
theorem exit_code_spec_witness : mainExitCode (fun _ => true) [] CAMERAS = 0 :=
  (exit_code_spec (fun _ => true) [] CAMERAS).1.mpr (by decide)

/-- C9: with the folder present and the writer opening, the encoder produces
no video when the selected image list is empty or when the first image in
natural sort order cannot be decoded, and otherwise proceeds and produces
one. -/
theorem timelapse_failure_spec (decode : String → Option Nat) (entries : List DirEntry)
    (fps : Nat) (image_ext : String) :
    (selectImages image_ext entries = [] →
      create_timelapse decode true entries fps true image_ext = none)
    ∧ (∀ first rest, natsorted (selectImages image_ext entries) = first :: rest →
        decode first = none →
        create_timelapse decode true entries fps true image_ext = none)
    ∧ (∀ first rest f, natsorted (selectImages image_ext entries) = first :: rest →
        decode first = some f →
        (create_timelapse decode true entries fps true image_ext).isSome = true) := by
  refine ⟨?_, ?_, ?_⟩
  · intro h
    simp [create_timelapse, h]
  · intro first rest hs hd
    have hne : selectImages image_ext entries ≠ [] := by
      intro hnil
      rw [hnil] at hs
      exact absurd hs (by simp [natsorted, sortLe])
    have hemp : (selectImages image_ext entries).isEmpty = false := by
      simpa [List.isEmpty_iff] using hne
    simp [create_timelapse, hemp, hs, hd]
  · intro first rest f hs hd
    have hne : selectImages image_ext entries ≠ [] := by
      intro hnil
      rw [hnil] at hs
      exact absurd hs (by simp [natsorted, sortLe])
    have hemp : (selectImages image_ext entries).isEmpty = false := by
      simpa [List.isEmpty_iff] using hne
    simp [create_timelapse, hemp, hs, hd]

/-- Witness for C9: a single selected image that cannot be decoded makes the
encoder produce no video. -/
theorem timelapse_failure_spec_witness :
    create_timelapse (fun _ => (none : Option Nat)) true [⟨"a.jpg", true⟩] 24 true ".jpg"
      = none :=
  (timelapse_failure_spec (fun _ => none) [⟨"a.jpg", true⟩] 24 ".jpg").2.1
    "a.jpg" [] (by decide) rfl

/-- C10: the encoder selects regular files whose lowercased name ends with
the lowercased extension, sorts them naturally (a permutation of the
selection), and when the first sorted image decodes, the video holds exactly
the decodable frames in that order while each undecodable later image is
skipped and counted. -/
theorem timelapse_frames_spec (decode : String → Option Nat) (entries : List DirEntry)
    (fps : Nat) (image_ext : String) (first : String) (rest : List String) (f : Nat)
    (hs : natsorted (selectImages image_ext entries) = first :: rest)
    (hf : decode first = some f) :
    create_timelapse decode true entries fps true image_ext
      = some ((first :: rest).filterMap decode,
              (first :: rest).countP (fun g => (decode g).isNone))
    ∧ (∀ nm, nm ∈ selectImages image_ext entries ↔
        ∃ e, e ∈ entries ∧ e.name = nm ∧ e.isRegularFile = true
          ∧ strEndsWith (strLower nm) (strLower image_ext) = true)
    ∧ (natsorted (selectImages image_ext entries)).Perm (selectImages image_ext entries) := by
  refine ⟨?_, ?_, sortLe_perm natLe (selectImages image_ext entries)⟩
  · have hne : selectImages image_ext entries ≠ [] := by
      intro hnil
      rw [hnil] at hs
      exact absurd hs (by simp [natsorted, sortLe])
    have hemp : (selectImages image_ext entries).isEmpty = false := by
      simpa [List.isEmpty_iff] using hne
    simp [create_timelapse, hemp, hs, hf]
  · intro nm
    simp only [selectImages, List.mem_map, List.mem_filter, Bool.and_eq_true]
    constructor
    · rintro ⟨e, ⟨he, hreg, hsuf⟩, rfl⟩
      exact ⟨e, he, rfl, hreg, hsuf⟩
    · rintro ⟨e, he, rfl, hreg, hsuf⟩
      exact ⟨e, ⟨he, hreg, hsuf⟩, rfl⟩

/-- Witness for C10: of two images only one decodes; the video holds exactly
that frame and one image was skipped. -/
theorem timelapse_frames_spec_witness :
    create_timelapse (fun s => if s = ("a.jpg" : String) then some 1 else none) true
      [⟨"b.jpg", true⟩, ⟨"a.jpg", true⟩] 24 true ".jpg" = some ([1], 1) := by
  rw [(timelapse_frames_spec (fun s => if s = ("a.jpg" : String) then some 1 else none)
    [⟨"b.jpg", true⟩, ⟨"a.jpg", true⟩] 24 ".jpg" "a.jpg" ["b.jpg"] 1 (by decide) (by decide)).1]
  decide
